import Mathlib

/-!
Verification of the AutoDeploy agent orchestration logic
(src/src/App.tsx) against its natural-language specification.

The program is a single React component.  Its orchestration core consists
of the state hooks `input`, `isProcessing`, `messages`, `steps` and the
functions `handleSend`, `simulateAgentProcess`, `updateStep`,
`addMessage`.  We embed it shallowly as follows:

* the React state is the record `AppState`;
* every state-changing effect the source performs is one constructor of
  `Event` (`resetSteps` for line 88, `setStep` for `updateStep`,
  `addMsg` for `addMessage`, `setProcessing`, `setInput`, and `wait` for
  `await delay(ms)`);
* `handleSendTrace` / `simulateAgentProcessTrace` are the exact ordered
  sequences of effects of `handleSend` / `simulateAgentProcess`,
  transcribed line by line from the source;
* `applyEvent` interprets one effect on an `AppState` paired with a
  millisecond clock (`Sys`): `Date.now()` is the clock, `await delay(ms)`
  advances it by `ms`, and statements with no intervening delay observe
  the same clock value, exactly as consecutive statements in the source
  observe the same `Date.now()` millisecond.

All definitions are computable, so claims about the concrete scenario
("build a todo app") evaluate by `decide` / `rfl`.
-/

set_option maxHeartbeats 1000000

namespace AutoDeploy

/-- Message role (`'user' | 'agent' | 'system'`), App.tsx line 26. -/
inductive Role where
  | user
  | agent
  | system
  deriving DecidableEq, Repr

/-- Message content kind (`'text' | 'code' | 'status'`), App.tsx line 29. -/
inductive MsgType where
  | text
  | code
  | status
  deriving DecidableEq, Repr

/-- The `Message` record of App.tsx lines 24-30.  `timestamp` is the
millisecond clock value at creation; `id` is `Date.now().toString()` in the
source, hence a decimal string of that same clock value. -/
structure Message where
  id : String
  role : Role
  content : String
  timestamp : Nat
  type : MsgType
  deriving DecidableEq, Repr

/-- Step lifecycle status, App.tsx line 35. -/
inductive StepStatus where
  | pending
  | active
  | completed
  | failed
  deriving DecidableEq, Repr

/-- The `Step` record of App.tsx lines 32-36. -/
structure Step where
  id : String
  label : String
  status : StepStatus
  deriving DecidableEq, Repr

/-- The React state of the component: `input`, `isProcessing`, `messages`,
`steps` (App.tsx lines 39-55). -/
structure AppState where
  input : String
  isProcessing : Bool
  messages : List Message
  steps : List Step
  deriving DecidableEq, Repr

/-- App state paired with the millisecond wall clock (`Date.now()`). -/
structure Sys where
  state : AppState
  now : Nat
  deriving DecidableEq, Repr

/-- The initial `steps` state, App.tsx lines 50-55. -/
def initialSteps : List Step :=
  [⟨"1", "Analyze Request", .pending⟩,
   ⟨"2", "Generate Architecture", .pending⟩,
   ⟨"3", "Write Code", .pending⟩,
   ⟨"4", "Deploy to Edge", .pending⟩]

/-- The initial system banner message, App.tsx lines 41-49, created at the
mount time `t0`. -/
def initialMessage (t0 : Nat) : Message :=
  ⟨"1", .system, "AutoDeploy Agent v1.0 initialized. Ready for instructions.", t0, .status⟩

/-- The initial React state at mount time `t0`, App.tsx lines 39-55. -/
def initialState (t0 : Nat) : AppState :=
  ⟨"", false, [initialMessage t0], initialSteps⟩

/-- `updateStep` of App.tsx lines 118-120:
`setSteps(prev => prev.map(s => s.id === id ? { ...s, status } : s))`. -/
def updateStep (id : String) (status : StepStatus) (steps : List Step) : List Step :=
  steps.map fun s => if s.id = id then { s with status := status } else s

/-- `addMessage` of App.tsx lines 122-130: appends a message whose `id` is
`Date.now().toString()` and whose `timestamp` is `new Date()`; `now` is the
current clock value. -/
def addMessage (role : Role) (content : String) (kind : MsgType) (now : Nat)
    (messages : List Message) : List Message :=
  messages ++ [⟨toString now, role, content, now, kind⟩]

/-- One primitive effect of the source code. -/
inductive Event where
  | resetSteps
  | setStep (id : String) (status : StepStatus)
  | addMsg (role : Role) (content : String) (kind : MsgType)
  | setProcessing (b : Bool)
  | setInput (s : String)
  | wait (ms : Nat)
  deriving DecidableEq, Repr

/-- Interpret one effect.  `resetSteps` is line 88
(`setSteps(prev => prev.map(s => ({ ...s, status: 'pending' })))`),
`setStep` is `updateStep`, `addMsg` is `addMessage` at the current clock,
`wait ms` is `await delay(ms)` which advances the clock. -/
def applyEvent (sys : Sys) : Event → Sys
  | .resetSteps =>
      ⟨{ sys.state with steps := sys.state.steps.map fun s => { s with status := .pending } },
       sys.now⟩
  | .setStep id status =>
      ⟨{ sys.state with steps := updateStep id status sys.state.steps }, sys.now⟩
  | .addMsg role content kind =>
      ⟨{ sys.state with messages := addMessage role content kind sys.now sys.state.messages },
       sys.now⟩
  | .setProcessing b => ⟨{ sys.state with isProcessing := b }, sys.now⟩
  | .setInput s => ⟨{ sys.state with input := s }, sys.now⟩
  | .wait ms => ⟨sys.state, sys.now + ms⟩

/-- Run a sequence of effects. -/
def runEvents (sys : Sys) (tr : List Event) : Sys :=
  tr.foldl applyEvent sys

/-- The content of the step-1 narration, App.tsx line 93:
`Analyzing request: "${prompt}"...`. -/
def analyzeContent (prompt : String) : String :=
  "Analyzing request: \"" ++ prompt ++ "\"..."

/-- The content of the terminal success entry, App.tsx line 114. -/
def successContent : String :=
  "Deployment successful! Application is live."

/-- The body of `simulateAgentProcess` after the reset, App.tsx lines
90-115, transcribed effect by effect. -/
def simulateStepsTrace (prompt : String) : List Event :=
  [.setStep "1" .active, .wait 1000,
   .addMsg .agent (analyzeContent prompt) .text,
   .setStep "1" .completed,
   .setStep "2" .active, .wait 1500,
   .addMsg .agent "Generating system architecture..." .code,
   .setStep "2" .completed,
   .setStep "3" .active, .wait 2000,
   .addMsg .agent "Writing React components and API routes..." .text,
   .setStep "3" .completed,
   .setStep "4" .active, .wait 2000,
   .addMsg .system "Deploying to production environment..." .status,
   .setStep "4" .completed,
   .addMsg .agent successContent .text,
   .setProcessing false]

/-- `simulateAgentProcess` of App.tsx lines 86-116: reset all steps to
`pending` (line 88), then the four-step pipeline. -/
def simulateAgentProcessTrace (prompt : String) : List Event :=
  .resetSteps :: simulateStepsTrace prompt

/-- JavaScript `String.prototype.trim`: the string with leading and
trailing whitespace removed (structurally recursive so that it evaluates
inside the kernel). -/
def jsTrim (s : String) : String :=
  ⟨((s.data.dropWhile Char.isWhitespace).reverse.dropWhile Char.isWhitespace).reverse⟩

/-- `handleSend` of App.tsx lines 67-84: if the trimmed input is empty or a
run is in progress it returns immediately with no effect (line 68,
`if (!input.trim() || isProcessing) return`); otherwise it appends the user
message, clears the input, sets the busy flag and runs
`simulateAgentProcess` on the submitted text. -/
def handleSendTrace (st : AppState) : List Event :=
  if jsTrim st.input = "" ∨ st.isProcessing = true then []
  else .addMsg .user st.input .text :: .setInput "" :: .setProcessing true ::
       simulateAgentProcessTrace st.input

/-- The UI entry points the component exposes (App.tsx lines 271-286): the
text input's `onChange` handler (`setInput`) and `handleSend`, reachable
via the Enter key (line 275) or the Send button (line 281).  These are the
only interface operations of the program. -/
inductive UIAction where
  | typeInput (s : String)
  | send
  deriving DecidableEq, Repr

/-- Effects performed by one interface operation. -/
def actionEvents (st : AppState) : UIAction → List Event
  | .typeInput s => [.setInput s]
  | .send => handleSendTrace st

/-! Observation helpers used to state the claims. -/

/-- The status of the step with the given id, if present. -/
def statusOf (id : String) (st : AppState) : Option StepStatus :=
  (st.steps.find? fun s => s.id = id).map Step.status

/-- The history of statuses a given step holds during a trace: one sample
after each effect (the sample after the run's initializing reset is the
first). -/
def statusesDuring (id : String) (sys : Sys) (tr : List Event) : List StepStatus :=
  ((List.scanl applyEvent sys tr).drop 1).filterMap fun s => statusOf id s.state

/-- The ids of steps set to `completed`, in the order those transitions
occur in the trace. -/
def completedIds (tr : List Event) : List String :=
  tr.filterMap fun e =>
    match e with
    | .setStep i .completed => some i
    | _ => none

/-- The labels (looked up in a step list) of the completed-transitions of
a trace, in order. -/
def completedLabels (tr : List Event) (steps : List Step) : List String :=
  (completedIds tr).filterMap fun i => (steps.find? fun s => s.id = i).map Step.label

/-- The effects occurring strictly between the transition of step `id` to
`active` and its transition to `completed`: the events of that step's
execution window. -/
def eventsDuringStep (id : String) (tr : List Event) : List Event :=
  ((tr.dropWhile fun e => !(decide (e = .setStep id .active))).drop 1).takeWhile
    fun e => !(decide (e = .setStep id .completed))

/-- Whether an effect appends an agent-origin entry. -/
def isAgentMsg : Event → Bool
  | .addMsg .agent _ _ => true
  | _ => false

/-- Whether an effect appends a system-origin entry. -/
def isSystemMsg : Event → Bool
  | .addMsg .system _ _ => true
  | _ => false

/-- Whether an agent entry is appended during the execution window of the
given step. -/
def hasAgentEntryDuring (id : String) (tr : List Event) : Bool :=
  (eventsDuringStep id tr).any isAgentMsg

/-- Whether a system entry is appended during the execution window of the
given step. -/
def hasSystemEntryDuring (id : String) (tr : List Event) : Bool :=
  (eventsDuringStep id tr).any isSystemMsg

/-- The canonical step list with arbitrary statuses: the fixed ids and
labels of App.tsx lines 50-55, each with any current lifecycle status. -/
def mkSteps (a b c d : StepStatus) : List Step :=
  [⟨"1", "Analyze Request", a⟩,
   ⟨"2", "Generate Architecture", b⟩,
   ⟨"3", "Write Code", c⟩,
   ⟨"4", "Deploy to Edge", d⟩]

/-- An idle app state: no run in progress, the canonical steps with
arbitrary statuses, arbitrary message log, and the given draft input. -/
def mkIdle (prompt : String) (msgs : List Message) (a b c d : StepStatus) : AppState :=
  ⟨prompt, false, msgs, mkSteps a b c d⟩

/-- The six entries an accepted submission appends, with the clock values
they observe when the submission happens at time `t`.  Note the deploy
narration and the success entry observe the same millisecond `t + 6500`:
no `await delay` separates lines 111 and 114 of the source. -/
def sentMessages (inp : String) (t : Nat) : List Message :=
  [⟨toString t, .user, inp, t, .text⟩,
   ⟨toString (t + 1000), .agent, analyzeContent inp, t + 1000, .text⟩,
   ⟨toString (t + 2500), .agent, "Generating system architecture...", t + 2500, .code⟩,
   ⟨toString (t + 4500), .agent, "Writing React components and API routes...", t + 4500, .text⟩,
   ⟨toString (t + 6500), .system, "Deploying to production environment...", t + 6500, .status⟩,
   ⟨toString (t + 6500), .agent, successContent, t + 6500, .text⟩]

/-- The (role, content, kind) triples of every entry the program can ever
append when the submitted text is `inp`: the echoed user entry and the five
fixed narrations of `simulateAgentProcess`. -/
def runNarrations (inp : String) : List (Role × String × MsgType) :=
  [(.user, inp, .text),
   (.agent, analyzeContent inp, .text),
   (.agent, "Generating system architecture...", .code),
   (.agent, "Writing React components and API routes...", .text),
   (.system, "Deploying to production environment...", .status),
   (.agent, successContent, .text)]

/-! The concrete scenario of spec property 6: submitting
"build a todo app" from the freshly mounted component (mount time 0). -/

/-- The idle state holding the drafted request "build a todo app". -/
def todoState : AppState :=
  { initialState 0 with input := "build a todo app" }

/-- The trace of effects of submitting "build a todo app". -/
def todoTrace : List Event :=
  handleSendTrace todoState

/-- The system after that submission completes. -/
def todoFinal : Sys :=
  runEvents ⟨todoState, 0⟩ todoTrace

/-! Helper lemmas shared by several claim proofs. -/

/-- When the trimmed input is nonempty and no run is active, `handleSend`
performs exactly: append the user entry, clear the input, raise the busy
flag, and run `simulateAgentProcess` on the submitted text. -/
theorem handleSend_accepted (st : AppState) (h1 : jsTrim st.input ≠ "")
    (h2 : st.isProcessing = false) :
    handleSendTrace st
      = .addMsg .user st.input .text :: .setInput "" :: .setProcessing true ::
        simulateAgentProcessTrace st.input := by
  unfold handleSendTrace
  rw [if_neg (by simp [h1, h2])]

/-- The entries an accepted submission adds to the log, with their clock
values, starting from any state at time `t`. -/
theorem sendEvents_messages (st : AppState) (t : Nat) :
    (runEvents ⟨st, t⟩
        (.addMsg .user st.input .text :: .setInput "" :: .setProcessing true ::
          simulateAgentProcessTrace st.input)).state.messages
      = st.messages ++ sentMessages st.input t := by
  simp [runEvents, applyEvent, addMessage, simulateAgentProcessTrace, simulateStepsTrace,
    sentMessages, List.append_assoc, Nat.add_assoc]

/-- `updateStep` preserves the ids and labels of the step list, in order. -/
theorem updateStep_skeleton (i : String) (status : StepStatus) (steps : List Step) :
    (updateStep i status steps).map (fun s => (s.id, s.label))
      = steps.map (fun s => (s.id, s.label)) := by
  induction steps with
  | nil => rfl
  | cons s ss ih =>
      simp only [updateStep, List.map_cons] at ih ⊢
      by_cases h : s.id = i <;> simp [h, ih]

/-- Every single effect preserves the ids and labels of the step list, in
order: only statuses ever change. -/
theorem applyEvent_skeleton (sys : Sys) (e : Event) :
    ((applyEvent sys e).state.steps).map (fun s => (s.id, s.label))
      = (sys.state.steps).map (fun s => (s.id, s.label)) := by
  cases e with
  | resetSteps => simp [applyEvent, List.map_map]
  | setStep i status => exact updateStep_skeleton i status sys.state.steps
  | addMsg r c k => rfl
  | setProcessing b => rfl
  | setInput s => rfl
  | wait ms => rfl

/-- Every sequence of effects preserves the ids and labels of the step
list, in order. -/
theorem runEvents_skeleton (tr : List Event) : ∀ sys : Sys,
    ((runEvents sys tr).state.steps).map (fun s => (s.id, s.label))
      = (sys.state.steps).map (fun s => (s.id, s.label)) := by
  induction tr with
  | nil => intro sys; rfl
  | cons e tr ih =>
      intro sys
      have h1 : runEvents sys (e :: tr) = runEvents (applyEvent sys e) tr := rfl
      rw [h1, ih (applyEvent sys e), applyEvent_skeleton]

/-- Every single effect leaves the existing log entries in place and at
most appends to them. -/
theorem applyEvent_messages (sys : Sys) (e : Event) :
    ∃ rest, (applyEvent sys e).state.messages = sys.state.messages ++ rest := by
  cases e with
  | addMsg r c k => exact ⟨[⟨toString sys.now, r, c, sys.now, k⟩], rfl⟩
  | resetSteps => exact ⟨[], by simp [applyEvent]⟩
  | setStep i status => exact ⟨[], by simp [applyEvent]⟩
  | setProcessing b => exact ⟨[], by simp [applyEvent]⟩
  | setInput s => exact ⟨[], by simp [applyEvent]⟩
  | wait ms => exact ⟨[], by simp [applyEvent]⟩

/-! Claim theorems. -/

/-- Claim C1: for every well-formed (non-empty after trimming) request
submitted while no run is active, the run completes successfully: every
step ends with status `completed`; the `completed` transitions occur for
steps 1, 2, 3, 4 in that order with no gaps; the trace ends with step 4's
completion followed by the terminal success entry, which is the last entry
of the timeline. -/
theorem C1_successful_run (prompt : String) (msgs : List Message)
    (a b c d : StepStatus) (t : Nat) (h : jsTrim prompt ≠ "") :
    ((runEvents ⟨mkIdle prompt msgs a b c d, t⟩
        (handleSendTrace (mkIdle prompt msgs a b c d))).state.steps
      = mkSteps .completed .completed .completed .completed)
    ∧ completedIds (handleSendTrace (mkIdle prompt msgs a b c d)) = ["1", "2", "3", "4"]
    ∧ (handleSendTrace (mkIdle prompt msgs a b c d)).drop 19
        = [.setStep "4" .completed, .addMsg .agent successContent .text, .setProcessing false]
    ∧ (handleSendTrace (mkIdle prompt msgs a b c d)).length = 22
    ∧ ((runEvents ⟨mkIdle prompt msgs a b c d, t⟩
          (handleSendTrace (mkIdle prompt msgs a b c d))).state.messages.getLast?).map
        (fun m => (m.role, m.content, m.type)) = some (.agent, successContent, .text) := by
  have hacc := handleSend_accepted (mkIdle prompt msgs a b c d) h rfl
  rw [hacc]
  refine ⟨rfl, rfl, rfl, rfl, ?_⟩
  rw [sendEvents_messages (mkIdle prompt msgs a b c d) t]
  simp [sentMessages, mkIdle]

/-- Witness for C1 at the concrete request "build a todo app" from the
freshly mounted state. -/
theorem C1_witness :
    jsTrim "build a todo app" ≠ ""
    ∧ (runEvents ⟨mkIdle "build a todo app" [initialMessage 0] .pending .pending .pending .pending, 0⟩
        (handleSendTrace (mkIdle "build a todo app" [initialMessage 0] .pending .pending .pending .pending))).state.steps
      = mkSteps .completed .completed .completed .completed :=
  ⟨by decide,
   (C1_successful_run "build a todo app" [initialMessage 0] .pending .pending .pending .pending 0
      (by decide)).1⟩

/-- Claim C2: a submission issued while a run is in progress
(`isProcessing = true`) is rejected immediately: `handleSend` performs no
effect at all, so the messages, the steps, the input and the busy flag are
all unchanged. -/
theorem C2_busy_reject (st : AppState) (t : Nat) (h : st.isProcessing = true) :
    handleSendTrace st = [] ∧ runEvents ⟨st, t⟩ (handleSendTrace st) = ⟨st, t⟩ := by
  have htr : handleSendTrace st = [] := by
    unfold handleSendTrace
    rw [if_pos (Or.inr h)]
  exact ⟨htr, by rw [htr]; rfl⟩

/-- Witness for C2: a concrete busy state mid-run. -/
theorem C2_witness :
    (AppState.mk "another request" true [initialMessage 0] (mkSteps .completed .active .pending .pending)).isProcessing = true
    ∧ handleSendTrace
        (AppState.mk "another request" true [initialMessage 0] (mkSteps .completed .active .pending .pending)) = [] :=
  ⟨rfl,
   (C2_busy_reject
      (AppState.mk "another request" true [initialMessage 0] (mkSteps .completed .active .pending .pending))
      0 rfl).1⟩

/-- Claim C3: for every run (started by `simulateAgentProcess` from any
statuses the canonical steps currently hold, with any prompt) and every
step, the step's within-run status history — sampled after each effect,
beginning with the run's initializing reset — destutters to exactly
`[pending, active, completed]`: the step starts `pending`, enters `active`
strictly before `completed`, skips no state of the chain, and never moves
backward. -/
theorem C3_status_chain (prompt inp : String) (proc : Bool) (msgs : List Message)
    (a b c d : StepStatus) (t : Nat) (id : String) (hid : id ∈ ["1", "2", "3", "4"]) :
    (statusesDuring id ⟨⟨inp, proc, msgs, mkSteps a b c d⟩, t⟩
        (simulateAgentProcessTrace prompt)).destutter (· ≠ ·)
      = [.pending, .active, .completed] := by
  fin_cases hid <;> rfl

/-- Witness for C3 at step "2" of the concrete "build a todo app" run. -/
theorem C3_witness :
    "2" ∈ ["1", "2", "3", "4"]
    ∧ (statusesDuring "2" ⟨⟨"", false, [initialMessage 0], mkSteps .pending .pending .pending .pending⟩, 0⟩
        (simulateAgentProcessTrace "build a todo app")).destutter (· ≠ ·)
      = [.pending, .active, .completed] :=
  ⟨by decide,
   C3_status_chain "build a todo app" "" false [initialMessage 0]
      .pending .pending .pending .pending 0 "2" (by decide)⟩

/-! Claim C4 concerns the concrete scenario `todoTrace`.  We encode the
claim as a decidable conjunction.  "Per step" follows the spec's own
per-step protocol (narration is appended between the step's `active` and
`completed` transitions), so an entry counts for a step when it is
appended during that step's execution window. -/

/-- Whether the run's final timeline entry is the terminal success entry
(agent origin, success content). -/
def finalSuccessAppended : Bool :=
  match todoFinal.state.messages.getLast? with
  | some m => m.role == .agent && m.content == successContent
  | none => false

/-- How many entries the "build a todo app" run appended to the timeline. -/
def c4EntriesAppended : Nat :=
  todoFinal.state.messages.length - todoState.messages.length

/-- The parts of claim C4 that do not mention entry origins: exactly four
step-completed transitions, in the order of the four canonical labels; a
final success entry; at least five entries appended in total. -/
def c4Shared : Bool :=
  (completedIds todoTrace == ["1", "2", "3", "4"])
  && (completedLabels todoTrace initialSteps
        == ["Analyze Request", "Generate Architecture", "Write Code", "Deploy to Edge"])
  && finalSuccessAppended
  && decide (5 ≤ c4EntriesAppended)

/-- Claim C4 exactly as stated: additionally, every one of the four steps
has an agent-origin entry appended during its execution window. -/
def c4Stated : Bool :=
  c4Shared && (["1", "2", "3", "4"].all fun i => hasAgentEntryDuring i todoTrace)

/-- Claim C4 as amended: steps 1-3 each get an agent entry during their
execution windows, but the entry appended during step 4's window is the
deploy narration, whose origin is `system` (App.tsx line 111); the
agent-origin success entry only follows after step 4 completes. -/
def c4Amended : Bool :=
  c4Shared && (["1", "2", "3"].all fun i => hasAgentEntryDuring i todoTrace)
  && hasSystemEntryDuring "4" todoTrace

/-- Counterexample to claim C4 as stated: on the concrete "build a todo
app" run, no agent-origin entry is appended during step 4's execution
window (the only entry there is the system-origin deploy narration), so
the claim's "at least one agent Entry per step" conjunct fails. -/
theorem C4_counterexample :
    c4Stated = false ∧ hasAgentEntryDuring "4" todoTrace = false := by
  constructor <;> decide

/-- Claim C4 as amended: the "build a todo app" run produces exactly four
step-completed transitions in the canonical label order, an agent entry
during each of steps 1-3, a system entry during step 4, a final agent
success entry, and at least five appended entries in total. -/
theorem C4_amended_scenario : c4Amended = true := by decide

/-- Claim C5 (code bug): entry identifiers are `Date.now().toString()`
(App.tsx lines 71 and 124), so two entries appended in the same
millisecond collide.  This happens in the nominal "build a todo app" run
itself: no delay separates the deploy narration (line 111) from the
success entry (line 114), so both observe clock 6500 and both get id
"6500".  The timeline's id sequence therefore contains a duplicate. -/
theorem C5_duplicate_ids :
    (todoFinal.state.messages.map Message.id)
      = ["1", "0", "1000", "2500", "4500", "6500", "6500"]
    ∧ ¬ (todoFinal.state.messages.map Message.id).Nodup := by
  constructor <;> decide

/-- Claim C6: the timeline is append-only.  Every sequence of effects of
the program (and hence `handleSend`, `simulateAgentProcess`, `addMessage`
and `updateStep`, whose effects are exactly such sequences) leaves the
previously appended entries unchanged — same id, role, content, timestamp
and kind, in the same relative order — and can only append after them. -/
theorem C6_append_only (sys : Sys) (tr : List Event) :
    ∃ rest, (runEvents sys tr).state.messages = sys.state.messages ++ rest := by
  induction tr generalizing sys with
  | nil => exact ⟨[], by simp [runEvents]⟩
  | cons e tr ih =>
      obtain ⟨r2, h2⟩ := ih (applyEvent sys e)
      obtain ⟨r1, h1⟩ := applyEvent_messages sys e
      refine ⟨r1 ++ r2, ?_⟩
      have hstep : runEvents sys (e :: tr) = runEvents (applyEvent sys e) tr := rfl
      rw [hstep, h2, h1, List.append_assoc]

/-- Claim C7: an accepted submission first resets every step to `pending`
before any step work begins — the trace is exactly the user-entry append,
the input clear and the busy flag raise, then the reset, then the step
pipeline, and after the first four effects every status is `pending` — and
across the whole program no effect ever changes the length, ids, labels or
order of the step list: only statuses change. -/
theorem C7_reset_then_frame (inp : String) (msgs : List Message)
    (a b c d : StepStatus) (t : Nat) (h : jsTrim inp ≠ "") :
    (handleSendTrace (mkIdle inp msgs a b c d)
      = [.addMsg .user inp .text, .setInput "", .setProcessing true, .resetSteps]
        ++ simulateStepsTrace inp)
    ∧ (runEvents ⟨mkIdle inp msgs a b c d, t⟩
          ((handleSendTrace (mkIdle inp msgs a b c d)).take 4)).state.steps
        = mkSteps .pending .pending .pending .pending
    ∧ (∀ (sys : Sys) (tr : List Event),
        ((runEvents sys tr).state.steps).map (fun s => (s.id, s.label))
          = (sys.state.steps).map (fun s => (s.id, s.label))) := by
  have hacc := handleSend_accepted (mkIdle inp msgs a b c d) h rfl
  refine ⟨by rw [hacc]; rfl, by rw [hacc]; rfl, fun sys tr => runEvents_skeleton tr sys⟩

/-- Witness for C7 at the concrete request "build a todo app". -/
theorem C7_witness :
    jsTrim "build a todo app" ≠ ""
    ∧ (runEvents ⟨mkIdle "build a todo app" [initialMessage 0] .pending .pending .pending .pending, 0⟩
          ((handleSendTrace (mkIdle "build a todo app" [initialMessage 0] .pending .pending .pending .pending)).take 4)).state.steps
        = mkSteps .pending .pending .pending .pending :=
  ⟨by decide,
   (C7_reset_then_frame "build a todo app" [initialMessage 0] .pending .pending .pending .pending 0
      (by decide)).2.1⟩

/-- Claim C8 (code bug): the program supports no cancellation.  Its whole
interface is `UIAction` (input editing and submit, the only handlers the
component wires up); whichever interface operation is invoked, in any
state at any time, every timeline entry it appends is either the echoed
user entry or one of the five fixed run narrations — none of which is a
`Cancelled` entry — and the state carries no run-status field other than
the boolean busy flag, so nothing can be "marked Cancelled". -/
theorem C8_no_cancel_in_interface (st : AppState) (t : Nat) (act : UIAction) (m : Message)
    (hm : m ∈ (runEvents ⟨st, t⟩ (actionEvents st act)).state.messages) :
    m ∈ st.messages ∨ (m.role, m.content, m.type) ∈ runNarrations st.input := by
  cases act with
  | typeInput s => exact Or.inl hm
  | send =>
      by_cases hc : jsTrim st.input = "" ∨ st.isProcessing = true
      · have htr : actionEvents st .send = ([] : List Event) := by
          show handleSendTrace st = []
          unfold handleSendTrace
          rw [if_pos hc]
        rw [htr] at hm
        exact Or.inl hm
      · push_neg at hc
        have hacc := handleSend_accepted st hc.1 (by simpa using hc.2)
        have htr : actionEvents st .send = handleSendTrace st := rfl
        rw [htr, hacc, sendEvents_messages st t] at hm
        rcases List.mem_append.mp hm with hl | hr
        · exact Or.inl hl
        · right
          simp only [sentMessages, List.mem_cons, List.not_mem_nil, or_false] at hr
          rcases hr with rfl | rfl | rfl | rfl | rfl | rfl <;> simp [runNarrations]

/-- Witness for C8: the banner entry survives typing into the input box
and is accounted for by the theorem. -/
theorem C8_witness :
    initialMessage 0 ∈ (runEvents ⟨initialState 0, 0⟩
        (actionEvents (initialState 0) (.typeInput "x"))).state.messages
    ∧ (initialMessage 0 ∈ (initialState 0).messages
        ∨ ((initialMessage 0).role, (initialMessage 0).content, (initialMessage 0).type)
            ∈ runNarrations (initialState 0).input) :=
  ⟨by decide, C8_no_cancel_in_interface (initialState 0) 0 (.typeInput "x") (initialMessage 0) (by decide)⟩

/-- Claim C9: `updateStep` touches only the step whose id matches, and of
that step only the status field: ids, labels and order are globally
preserved; any position whose step has a different id holds the identical
step record afterwards; a matching position holds the same id and label
with the new status; and an id not present in the list at all makes the
call a total no-op. -/
theorem C9_updateStep_frame (steps : List Step) (i : String) (status : StepStatus) :
    ((updateStep i status steps).map (fun s => (s.id, s.label))
        = steps.map (fun s => (s.id, s.label)))
    ∧ (∀ j : Nat, (∀ s ∈ steps[j]?, s.id ≠ i) → (updateStep i status steps)[j]? = steps[j]?)
    ∧ (∀ j : Nat, ∀ s ∈ steps[j]?, s.id = i →
        (updateStep i status steps)[j]? = some ⟨s.id, s.label, status⟩)
    ∧ (i ∉ steps.map Step.id → updateStep i status steps = steps) := by
  refine ⟨updateStep_skeleton i status steps, ?_, ?_, ?_⟩
  · intro j hj
    rw [show (updateStep i status steps)[j]?
          = steps[j]?.map (fun s => if s.id = i then { s with status := status } else s) from
        List.getElem?_map ..]
    cases hsj : steps[j]? with
    | none => rfl
    | some s =>
        have hne : s.id ≠ i := hj s (by rw [hsj]; rfl)
        simp [hne]
  · intro j s hs hsi
    rw [show (updateStep i status steps)[j]?
          = steps[j]?.map (fun s => if s.id = i then { s with status := status } else s) from
        List.getElem?_map ..]
    rw [show steps[j]? = some s from hs]
    simp [hsi]
  · intro hni
    induction steps with
    | nil => rfl
    | cons s ss ih =>
        simp only [List.map_cons, List.mem_cons] at hni
        push_neg at hni
        have h1 : s.id ≠ i := fun h => hni.1 h.symm
        simp only [updateStep, List.map_cons, if_neg h1]
        have h2 := ih hni.2
        simp only [updateStep] at h2
        rw [h2]

/-- Witness for C9: updating a nonexistent id "5" leaves the canonical
step list untouched. -/
theorem C9_witness :
    "5" ∉ initialSteps.map Step.id
    ∧ updateStep "5" .active initialSteps = initialSteps :=
  ⟨by decide, (C9_updateStep_frame initialSteps "5" .active).2.2.2 (by decide)⟩

/-- Claim C10: a submission whose input is empty or all whitespace is a
complete no-op: `handleSend` performs no effect, so no user entry is
appended, no step status changes, and the busy flag keeps its value. -/
theorem C10_blank_input_noop (st : AppState) (t : Nat) (h : jsTrim st.input = "") :
    handleSendTrace st = [] ∧ runEvents ⟨st, t⟩ (handleSendTrace st) = ⟨st, t⟩ := by
  have htr : handleSendTrace st = [] := by
    unfold handleSendTrace
    rw [if_pos (Or.inl h)]
  exact ⟨htr, by rw [htr]; rfl⟩

/-- Witness for C10 at the all-whitespace input "   ". -/
theorem C10_witness :
    jsTrim (AppState.mk "   " false [initialMessage 0] initialSteps).input = ""
    ∧ handleSendTrace (AppState.mk "   " false [initialMessage 0] initialSteps) = [] :=
  ⟨by decide,
   (C10_blank_input_noop (AppState.mk "   " false [initialMessage 0] initialSteps) 0 (by decide)).1⟩

end AutoDeploy
